import Mathlib

set_option maxHeartbeats 1000000

/-!
Shallow embedding of `src/index.ts` of the koishi-plugin-giftcard repository.

The plugin keeps two tables: `giftcard_cards` (vouchers) and
`giftcard_invites` (the reward ledger).  The `guild-member-added` handler
reads both tables first (previous-join check, available-card query) and then
performs a sequence of separate `database.set` / `upsert` calls; no
transaction wraps them (the `withTransaction` block in the source is
commented out).  Because every read precedes every write, the handler is
embedded as a planning function `joinPlan` that returns the list of database
writes the handler issues, in execution order, together with the observable
outcome; `processJoin` applies them all, and `processJoinFailAfter` applies
only a front segment of them, modelling an exception thrown between two of
the sequential awaited store calls (the surrounding `catch` only logs and
performs no rollback).
-/

/-- Row of the `giftcard_cards` table (source interface `GiftCardEntry`).
`left` is modelled as `Int` because the handler computes `card.left - 1`
with JS number arithmetic before writing it back; timestamps are `Nat`. -/
structure GiftCardEntry where
  id : Nat
  card_code : String
  assigned_to_user_id : Option String
  assigned_timestamp : Option Nat
  added_by_admin_id : String
  add_timestamp : Nat
  left : Int
  isreusable : Bool
deriving Repr, DecidableEq

/-- Row of the `giftcard_invites` table (source interface `GiftCardInviteLog`). -/
structure GiftCardInviteLog where
  id : Nat
  inviter_id : Option String
  invited_id : String
  group_id : String
  timestamp : Nat
  inviter_card_id : Option Nat
  invited_card_id : Option Nat
deriving Repr, DecidableEq

/-- The two tables owned by the plugin. -/
structure DBState where
  cards : List GiftCardEntry
  invites : List GiftCardInviteLog
deriving Repr, DecidableEq

/-- The plugin configuration fields the handler consults (source `Config`). -/
structure Config where
  targetGroups : List String
  adminIds : List String
  cardsPerInviter : Nat
  rewardInvitedUser : Bool
deriving Repr

/-- Payload of a `guild-member-added` session: `session.guildId`,
`session.userId` (the joining user) and `session.operatorId` (the purported
inviter, possibly absent).  `now` models `new Date()`. -/
structure JoinEvent where
  guildId : Option String
  userId : String
  operatorId : Option String
  now : Nat
deriving Repr, DecidableEq

/-- One store write issued by the plugin: `database.set` on `giftcard_cards`
filtered by `card_code` updating `left`, `database.set` updating
`assigned_to_user_id`/`assigned_timestamp`, or an `upsert` into
`giftcard_invites`. -/
inductive DBWrite where
  | setLeft (code : String) (newLeft : Int)
  | assignOwner (code : String) (user : String) (ts : Nat)
  | insertInvite (log : GiftCardInviteLog)
deriving Repr, DecidableEq

/-- Apply one write to the state, mirroring the store semantics: `set`
updates every row whose `card_code` matches the filter, `upsert` of a fresh
ledger row appends it. -/
def applyWrite (db : DBState) : DBWrite → DBState
  | .setLeft code v =>
      { db with cards := db.cards.map fun c =>
          if c.card_code = code then { c with left := v } else c }
  | .assignOwner code u ts =>
      { db with cards := db.cards.map fun c =>
          if c.card_code = code then
            { c with assigned_to_user_id := some u, assigned_timestamp := some ts }
          else c }
  | .insertInvite log => { db with invites := db.invites ++ [log] }

/-- The card-table code a write touches (`none` for a ledger insert). -/
def targetCode : DBWrite → Option String
  | .setLeft code _ => some code
  | .assignOwner code _ _ => some code
  | .insertInvite _ => none

/-- `Math.max(0, config.cardsPerInviter ?? 1)` (source line 164). -/
def cardsNeededForInviter (cfg : Config) : Nat := max 0 cfg.cardsPerInviter

/-- `config.rewardInvitedUser ? 1 : 0` (source line 165). -/
def cardsNeededForInvited (cfg : Config) : Nat :=
  if cfg.rewardInvitedUser then 1 else 0

/-- `totalCardsNeeded` (source line 166). -/
def totalCardsNeeded (cfg : Config) : Nat :=
  cardsNeededForInviter cfg + cardsNeededForInvited cfg

/-- `database.get('giftcard_cards', { assigned_to_user_id: null })`
(source lines 184-186): every card whose owner field is null, reusable or
not, regardless of its `left` counter. -/
def availableCards (db : DBState) : List GiftCardEntry :=
  db.cards.filter fun c => c.assigned_to_user_id.isNone

/-- The capacity sum of source line 188:
`availableCards.reduce((acc, card) => acc + (card.isreusable ? card.left : 1), 0)`. -/
def totalAvailableCards (db : DBState) : Int :=
  (availableCards db).foldl (fun acc c => acc + (if c.isreusable then c.left else 1)) 0

/-- Card selection for the inviter (source lines 245-250): reusable cards
first, one *record* per needed unit, then unassigned single-use cards. -/
def selectCardsForInviter (cfg : Config) (avail : List GiftCardEntry) :
    List GiftCardEntry :=
  let reusableCards := avail.filter fun c => c.isreusable
  let nonReusableCards := avail.filter fun c => !c.isreusable
  let reusableCardsNeeded := min reusableCards.length (cardsNeededForInviter cfg)
  let nonReusableCardsNeeded := cardsNeededForInviter cfg - reusableCardsNeeded
  reusableCards.take reusableCardsNeeded ++ nonReusableCards.take nonReusableCardsNeeded

/-- The write issued for consuming one selected card for `recipient`
(source lines 252-258 and 262-266): a reusable card gets `left` decremented
from its snapshot value, a single-use card gets its owner written. -/
def consumeWrite (c : GiftCardEntry) (recipient : String) (now : Nat) : DBWrite :=
  if c.isreusable then .setLeft c.card_code (c.left - 1)
  else .assignOwner c.card_code recipient now

/-- The for-loop of source lines 252-258: one consuming write per selected
inviter card (the loop body only runs when `cardsNeededForInviter > 0`
because the selection happens inside that guard). -/
def inviterWrites (cfg : Config) (inviterId : String) (now : Nat)
    (avail : List GiftCardEntry) : List DBWrite :=
  if 0 < cardsNeededForInviter cfg then
    (selectCardsForInviter cfg avail).map fun c => consumeWrite c inviterId now
  else []

/-- The reward-branch writes (source lines 244-267) computed from the
`availableCards` snapshot, and whether the branch throws.  The invited
member's card is looked up as `availableCards[cardsNeededForInviter]`; when
that index is out of range the JS value is `undefined` and reading
`card.isreusable` throws, so only the inviter writes have been issued when
the surrounding `catch` swallows the error: the Bool is `true` in that
case. -/
def rewardWrites (cfg : Config) (inviterId invitedId : String) (now : Nat)
    (avail : List GiftCardEntry) : List DBWrite × Bool :=
  if 0 < cardsNeededForInvited cfg then
    match avail[cardsNeededForInviter cfg]? with
    | none => (inviterWrites cfg inviterId now avail, true)
    | some c =>
        (inviterWrites cfg inviterId now avail ++ [consumeWrite c invitedId now],
         false)
  else (inviterWrites cfg inviterId now avail, false)

/-- Auto-increment id for a fresh `giftcard_invites` row. -/
def nextInviteId (db : DBState) : Nat :=
  db.invites.foldl (fun m l => max m l.id) 0 + 1

/-- Observable outcome of one `guild-member-added` event. -/
inductive JoinOutcome where
  | notTargetGroup
  | directJoin
  | alreadyJoined
  | noCardsNeeded
  | insufficientInventory (notifiedAdmins : List String)
  | crashedAfterInviterWrites
  | rewarded (inviterCards : List GiftCardEntry) (invitedNotified : Bool)
deriving Repr, DecidableEq

/-- Mirrors the source variable `cardForInvited` declared at line 204
(`let cardForInvited: GiftCardEntry | null = null`): the rewritten
allocation code at lines 260-267 uses its own local `card` and never
assigns `cardForInvited`, so it stays null on every path. -/
def cardForInvited : Option GiftCardEntry := none

/-- The `guild-member-added` handler (source lines 113-298) as a planning
function: all table reads happen before any write in the source, so the
handler is equivalent to computing this write list from the initial state
and then applying it in order.  The private message to the invited member
(source line 286) is sent exactly when `cardForInvited` is non-null, which
the `rewarded` outcome records as its Bool. -/
def joinPlan (cfg : Config) (ev : JoinEvent) (db : DBState) :
    List DBWrite × JoinOutcome :=
  match ev.guildId with
  | none => ([], .notTargetGroup)
  | some gid =>
    if cfg.targetGroups.contains gid then
      match ev.operatorId with
      | none => ([], .directJoin)
      | some inviterId =>
        if inviterId = ev.userId then ([], .directJoin)
        else if 0 < (db.invites.filter fun l =>
            l.invited_id == ev.userId && l.group_id == gid).length then
          ([], .alreadyJoined)
        else if totalCardsNeeded cfg = 0 then
          ([.insertInvite
              { id := nextInviteId db, inviter_id := some inviterId,
                invited_id := ev.userId, group_id := gid, timestamp := ev.now,
                inviter_card_id := none, invited_card_id := none }],
           .noCardsNeeded)
        else if totalAvailableCards db < (totalCardsNeeded cfg : Int) then
          ([], .insufficientInventory cfg.adminIds)
        else if (rewardWrites cfg inviterId ev.userId ev.now (availableCards db)).2 then
          ((rewardWrites cfg inviterId ev.userId ev.now (availableCards db)).1,
           .crashedAfterInviterWrites)
        else
          ((rewardWrites cfg inviterId ev.userId ev.now (availableCards db)).1,
           .rewarded (selectCardsForInviter cfg (availableCards db))
             cardForInvited.isSome)
    else ([], .notTargetGroup)

/-- Run the handler to completion: apply every planned write. -/
def processJoin (cfg : Config) (ev : JoinEvent) (db : DBState) :
    DBState × JoinOutcome :=
  ((joinPlan cfg ev db).1.foldl applyWrite db, (joinPlan cfg ev db).2)

/-- Fault model for the sequential store calls: the state observed when the
`(k+1)`-th write of the handler throws (or the process dies there).  The
source issues its writes as separate awaited `database.set`/`upsert` calls
with no transaction, and the enclosing `catch` only logs, so the first `k`
writes remain applied. -/
def processJoinFailAfter (cfg : Config) (ev : JoinEvent) (db : DBState)
    (k : Nat) : DBState :=
  ((joinPlan cfg ev db).1.take k).foldl applyWrite db

/-- `[...new Set(list)]`: deduplication keeping first occurrences
(source line 312). -/
def dedupKeepFirst (seen : List String) : List String → List String
  | [] => []
  | c :: cs =>
    if seen.contains c then dedupKeepFirst seen cs
    else c :: dedupKeepFirst (c :: seen) cs

/-- Auto-increment id for fresh `giftcard_cards` rows. -/
def nextCardId (db : DBState) : Nat :=
  db.cards.foldl (fun m c => max m c.id) 0 + 1

/-- Report returned by the add-inventory commands. -/
structure AddReport where
  successfullyAdded : List String
  alreadyExisted : List String
deriving Repr, DecidableEq

/-- A fresh single-use row as built by the `.add` action (source lines
338-345): owner null, `isreusable: false`; the object carries no `left`
field, so the unsigned column takes its default 0. -/
def mkSingleCard (adminId : String) (now : Nat) (cid : Nat) (code : String) :
    GiftCardEntry :=
  { id := cid, card_code := code, assigned_to_user_id := none,
    assigned_timestamp := none, added_by_admin_id := adminId,
    add_timestamp := now, left := 0, isreusable := false }

/-- A fresh multi-use row as built by the `.addre` action (source lines
567-575): owner null, `left` from the parsed frequency, `isreusable: true`. -/
def mkMultiCard (adminId : String) (now : Nat) (freq : Int) (cid : Nat)
    (code : String) : GiftCardEntry :=
  { id := cid, card_code := code, assigned_to_user_id := none,
    assigned_timestamp := none, added_by_admin_id := adminId,
    add_timestamp := now, left := freq, isreusable := true }

/-- `existingCodeSet` (source lines 324-328): the codes of the stored cards
matched by the `$in` query over the deduplicated input. -/
def existingCodesOf (db : DBState) (input : List String) : List String :=
  (db.cards.filter fun c => input.contains c.card_code).map fun c => c.card_code

/-- `codesToAttemptUpsert` (source line 330): input codes not yet stored. -/
def codesToUpsert (db : DBState) (input : List String) : List String :=
  input.filter fun c => !(existingCodesOf db input).contains c

/-- `alreadyExistedCodes` (source lines 331-335): input codes already stored. -/
def codesAlreadyThere (db : DBState) (input : List String) : List String :=
  input.filter fun c => (existingCodesOf db input).contains c

/-- The `.add` action (source lines 302-379) on an already-split code list:
deduplicate the input with a `Set`, query which of those codes already
exist, report those as already existing, and upsert only the genuinely new
codes as single-use rows. -/
def addCards (adminId : String) (now : Nat) (codes : List String)
    (db : DBState) : DBState × AddReport :=
  ({ db with cards := db.cards ++
      ((codesToUpsert db (dedupKeepFirst [] codes)).enum.map fun p =>
        mkSingleCard adminId now (nextCardId db + p.1) p.2) },
   { successfullyAdded := codesToUpsert db (dedupKeepFirst [] codes),
     alreadyExisted := codesAlreadyThere db (dedupKeepFirst [] codes) })

/-- The `.addre` action (source lines 532-604): same dedup-and-skip shape as
`.add`, inserting multi-use rows with `left := parseInt(frequency)`. -/
def addReCards (adminId : String) (now : Nat) (codes : List String)
    (freq : Int) (db : DBState) : DBState × AddReport :=
  ({ db with cards := db.cards ++
      ((codesToUpsert db (dedupKeepFirst [] codes)).enum.map fun p =>
        mkMultiCard adminId now freq (nextCardId db + p.1) p.2) },
   { successfullyAdded := codesToUpsert db (dedupKeepFirst [] codes),
     alreadyExisted := codesAlreadyThere db (dedupKeepFirst [] codes) })

/-- The `.me` query (source lines 459-461): cards whose owner is the
requesting user. -/
def getMyCards (u : String) (db : DBState) : List GiftCardEntry :=
  db.cards.filter fun c => c.assigned_to_user_id == some u

/-- One state-mutating operation of the plugin. -/
inductive Op where
  | join (ev : JoinEvent)
  | addSingle (adminId : String) (now : Nat) (codes : List String)
  | addMulti (adminId : String) (now : Nat) (codes : List String) (freq : Int)
deriving Repr

/-- Apply one operation to the state. -/
def applyOp (cfg : Config) (db : DBState) : Op → DBState
  | .join ev => (processJoin cfg ev db).1
  | .addSingle a now codes => (addCards a now codes db).1
  | .addMulti a now codes freq => (addReCards a now codes freq db).1

/-- Run a sequence of operations. -/
def runOps (cfg : Config) (db : DBState) (ops : List Op) : DBState :=
  ops.foldl (applyOp cfg) db

/-- The `card_code` column is declared `unique` (source line 93). -/
def codesNodup (db : DBState) : Prop :=
  (db.cards.map fun c => c.card_code).Nodup

/-- Invariant that multi-use cards are never owner-assigned. -/
def ReusableUnowned (db : DBState) : Prop :=
  ∀ c ∈ db.cards, c.isreusable = true → c.assigned_to_user_id = none

instance (db : DBState) : Decidable (codesNodup db) := by
  unfold codesNodup; infer_instance

instance (db : DBState) : Decidable (ReusableUnowned db) := by
  unfold ReusableUnowned; infer_instance

/-! Concrete states, configurations and events used by the scenario theorems. -/

/-- Empty database. -/
def dbEmpty : DBState := { cards := [], invites := [] }

/-- Configuration: reward group `g`, admin `adm`, one card per inviter, no
card for the invited member. -/
def cfg1 : Config :=
  { targetGroups := ["g"], adminIds := ["adm"], cardsPerInviter := 1,
    rewardInvitedUser := false }

/-- Configuration: two cards per inviter, no card for the invited member. -/
def cfg2 : Config :=
  { targetGroups := ["g"], adminIds := ["adm"], cardsPerInviter := 2,
    rewardInvitedUser := false }

/-- Configuration: two cards per inviter and one for the invited member. -/
def cfg21 : Config :=
  { targetGroups := ["g"], adminIds := ["adm"], cardsPerInviter := 2,
    rewardInvitedUser := true }

/-- Single-use card `S1`. -/
def cardS1 : GiftCardEntry := mkSingleCard "adm" 0 1 "S1"

/-- Single-use card `S2`. -/
def cardS2 : GiftCardEntry := mkSingleCard "adm" 0 2 "S2"

/-- User `u` joins group `g`, invited by `v`. -/
def evJoin : JoinEvent :=
  { guildId := some "g", userId := "u", operatorId := some "v", now := 3 }

/-- Inventory of two unassigned single-use cards. -/
def dbC1 : DBState := { cards := [cardS1, cardS2], invites := [] }

/-- State after the first processing of `evJoin` on `dbC1` under `cfg1`. -/
def dbC1' : DBState := (processJoin cfg1 evJoin dbC1).1

/-- Claim C1: the reward path of the handler writes no `giftcard_invites`
ledger row (the upsert only exists inside the commented-out transaction
block), so a join that was already rewarded is not detected as adjudicated:
replaying the very same join event mutates the card table again and issues
a second reward.  Concretely, after `evJoin` is rewarded with `S1`, the
ledger is still empty and replaying `evJoin` assigns `S2` to the same
inviter. -/
theorem replayAfterReward_mutates :
    (processJoin cfg1 evJoin dbC1).2 = JoinOutcome.rewarded [cardS1] false ∧
    dbC1'.invites = [] ∧
    (processJoin cfg1 evJoin dbC1').1 ≠ dbC1' ∧
    ∃ c ∈ (processJoin cfg1 evJoin dbC1').1.cards,
      c.card_code = "S2" ∧ c.assigned_to_user_id = some "v" := by decide

/-- Claim C2: the commit is not atomic.  The handler issues its card writes
as separate sequential `database.set` calls with no transaction; with two
single-use cards and a requirement of two, failing after the first write
leaves a state that differs from both the initial and the fully-committed
state, i.e. a partial mutation is observable.  Moreover even the complete
run inserts no ledger row, so the planned writes and the ledger insert
never all take effect. -/
theorem sequentialWrites_not_atomic :
    (joinPlan cfg2 evJoin dbC1).1.length = 2 ∧
    processJoinFailAfter cfg2 evJoin dbC1 1 ≠ dbC1 ∧
    processJoinFailAfter cfg2 evJoin dbC1 1 ≠ (processJoin cfg2 evJoin dbC1).1 ∧
    (processJoin cfg2 evJoin dbC1).2 = JoinOutcome.rewarded [cardS1, cardS2] false ∧
    (processJoin cfg2 evJoin dbC1).1.invites = [] := by decide

/-- User `u1` joins group `g`, invited by `v1`. -/
def evJ1 : JoinEvent :=
  { guildId := some "g", userId := "u1", operatorId := some "v1", now := 1 }

/-- User `u2` joins group `g`, invited by `v2`. -/
def evJ2 : JoinEvent :=
  { guildId := some "g", userId := "u2", operatorId := some "v2", now := 2 }

/-- Operation sequence: create multi-use card `M` with one use and
single-use card `S`, then two rewarded joins. -/
def opsC3 : List Op :=
  [Op.addMulti "adm" 0 ["M"] 1, Op.addSingle "adm" 0 ["S"],
   Op.join evJ1, Op.join evJ2]

/-- State after the first three operations of `opsC3`: `M` has been
consumed down to `left = 0`. -/
def dbC3mid : DBState := runOps cfg1 dbEmpty (opsC3.take 3)

/-- Claim C3: the available-card query filters only on a null owner, never
on `left > 0` (and multi-use cards never get an owner), so a multi-use card
whose counter has reached 0 is still selected by the allocator and is
decremented again, driving `left` to `-1`.  Reached from the empty store:
add `M` with one use, consume it once, then a second rewarded join selects
`M` again. -/
theorem zeroLeftCard_selected_and_decremented :
    (∃ c ∈ availableCards dbC3mid,
      c.card_code = "M" ∧ c.isreusable = true ∧ c.left = 0) ∧
    (selectCardsForInviter cfg1 (availableCards dbC3mid)).map
      (fun c => c.card_code) = ["M"] ∧
    ((runOps cfg1 dbEmpty opsC3).cards.filter fun c => c.card_code == "M").map
      (fun c => c.left) = [-1] := by decide

/-- Multi-use card `M` with two remaining uses. -/
def cardM : GiftCardEntry := mkMultiCard "adm" 0 2 1 "M"

/-- Single-use card `S1` with id 2 (inventory of the C4 scenario). -/
def cardS1b : GiftCardEntry := mkSingleCard "adm" 0 2 "S1"

/-- Inventory of the spec scenario: `M` (2 uses) and unassigned `S1`. -/
def dbC4 : DBState := { cards := [cardM, cardS1b], invites := [] }

/-- Claim C4: on the spec scenario (multi-use `M` with 2 uses, single-use
`S1`, requirement referrer=2 newMember=1) the code does not spread the
referrer requirement over `M`'s uses: it takes one use per multi-use
*record* (`Math.min(reusableCards.length, cardsNeededForInviter)`), so it
decrements `M` once, assigns `S1` to the *referrer*, and then reads
`availableCards[2]` — out of range — so the invited member's branch throws
and is caught: the invited member gets nothing and no ledger row is
written. -/
theorem allocScenario_crashes_midway :
    (processJoin cfg21 evJoin dbC4).2 = JoinOutcome.crashedAfterInviterWrites ∧
    (processJoin cfg21 evJoin dbC4).1.cards =
      [{ cardM with left := 1 },
       { cardS1b with assigned_to_user_id := some "v",
                      assigned_timestamp := some 3 }] ∧
    (processJoin cfg21 evJoin dbC4).1.invites = [] := by decide

/-- Card `A`, already present before the C8 batch. -/
def cardA : GiftCardEntry := mkSingleCard "adm0" 0 1 "A"

/-- Store already holding card `A`. -/
def dbC8 : DBState := { cards := [cardA], invites := [] }

/-- Claim C8 counterexample: adding the batch `[A, A, B]` when `A` already
exists reports `A` as already-existing only once, not once per input
occurrence — the action deduplicates the input with a `Set` before
checking the store. -/
theorem addBatch_dedup_counterexample :
    (addCards "adm" 7 ["A", "A", "B"] dbC8).2.alreadyExisted = ["A"] ∧
    ((addCards "adm" 7 ["A", "A", "B"] dbC8).2.alreadyExisted.count "A") ≠ 2 := by
  decide

/-- Claim C8 (amended): adding `[A, A, B]` when `A` exists inserts `B`,
reports the deduplicated code `A` once as already-existing, leaves the
stored record of `A` untouched, and attempts no insert of an existing code,
so the unique-key constraint on `card_code` is never violated. -/
theorem addBatch_dedup_behavior :
    (addCards "adm" 7 ["A", "A", "B"] dbC8).1 =
      { cards := [cardA, mkSingleCard "adm" 7 2 "B"], invites := [] } ∧
    (addCards "adm" 7 ["A", "A", "B"] dbC8).2 =
      { successfullyAdded := ["B"], alreadyExisted := ["A"] } ∧
    codesNodup (addCards "adm" 7 ["A", "A", "B"] dbC8).1 := by decide

/-! Helper lemmas about the writes the handler issues. -/

/-- Bridge between `List.contains` and membership for strings. -/
lemma contains_eq_true_iff {l : List String} {a : String} :
    l.contains a = true ↔ a ∈ l := List.elem_iff

/-- A selected inviter card comes from the snapshot. -/
lemma mem_selectCardsForInviter {cfg : Config} {avail : List GiftCardEntry}
    {c : GiftCardEntry} (h : c ∈ selectCardsForInviter cfg avail) : c ∈ avail := by
  simp only [selectCardsForInviter, List.mem_append] at h
  rcases h with h' | h'
  · exact (List.mem_filter.1 (List.mem_of_mem_take h')).1
  · exact (List.mem_filter.1 (List.mem_of_mem_take h')).1

/-- An available card is stored and unassigned. -/
lemma mem_availableCards {db : DBState} {a : GiftCardEntry}
    (h : a ∈ availableCards db) :
    a ∈ db.cards ∧ a.assigned_to_user_id = none := by
  have h' := List.mem_filter.1 h
  exact ⟨h'.1, Option.isNone_iff_eq_none.1 h'.2⟩

/-- A consuming write targets the consumed card's code. -/
lemma consumeWrite_target (a : GiftCardEntry) (r : String) (n : Nat) :
    targetCode (consumeWrite a r n) = some a.card_code := by
  unfold consumeWrite
  by_cases h : a.isreusable = true <;> simp [h, targetCode]

/-- Every inviter-loop write consumes a card from the snapshot. -/
lemma mem_inviterWrites {cfg : Config} {i : String} {n : Nat}
    {avail : List GiftCardEntry} {w : DBWrite}
    (hw : w ∈ inviterWrites cfg i n avail) :
    ∃ a ∈ avail, ∃ r, w = consumeWrite a r n := by
  unfold inviterWrites at hw
  split at hw
  · obtain ⟨a, ha, rfl⟩ := List.mem_map.1 hw
    exact ⟨a, mem_selectCardsForInviter ha, i, rfl⟩
  · simp at hw

/-- Every reward-branch write consumes a card from the snapshot. -/
lemma rewardWrites_mem {cfg : Config} {i j : String} {n : Nat}
    {avail : List GiftCardEntry} {w : DBWrite}
    (hw : w ∈ (rewardWrites cfg i j n avail).1) :
    ∃ a ∈ avail, ∃ r, w = consumeWrite a r n := by
  unfold rewardWrites at hw
  split at hw
  · split at hw
    · exact mem_inviterWrites hw
    · rename_i c hc
      rcases List.mem_append.1 hw with h' | h'
      · exact mem_inviterWrites h'
      · have hwc : w = consumeWrite c j n := by simpa using h'
        exact ⟨c, List.getElem?_mem hc, j, hwc⟩
  · exact mem_inviterWrites hw

/-- Every write planned for a join event either inserts a ledger row or
consumes a card that was unassigned in the pre-state. -/
lemma joinPlan_writes {cfg : Config} {ev : JoinEvent} {db : DBState} {w : DBWrite}
    (hw : w ∈ (joinPlan cfg ev db).1) :
    (∃ log, w = DBWrite.insertInvite log) ∨
    ∃ a ∈ availableCards db, ∃ r, w = consumeWrite a r ev.now := by
  unfold joinPlan at hw
  split at hw
  · simp at hw
  · split at hw
    · split at hw
      · simp at hw
      · split at hw
        · simp at hw
        · split at hw
          · simp at hw
          · split at hw
            · left
              simp only [List.mem_singleton] at hw
              exact ⟨_, hw⟩
            · split at hw
              · simp at hw
              · split at hw
                · exact Or.inr (rewardWrites_mem hw)
                · exact Or.inr (rewardWrites_mem hw)
    · simp at hw

/-- The code/reusability skeleton of a card. -/
def cardSkel (c : GiftCardEntry) : String × Bool := (c.card_code, c.isreusable)

/-- A write never changes the code/reusability skeleton of the card table. -/
lemma applyWrite_skeleton (db : DBState) (w : DBWrite) :
    (applyWrite db w).cards.map cardSkel = db.cards.map cardSkel := by
  cases w with
  | setLeft code v =>
      simp only [applyWrite, List.map_map]
      refine List.map_congr_left fun c _ => ?_
      by_cases h : c.card_code = code <;> simp [cardSkel, Function.comp, h]
  | assignOwner code u ts =>
      simp only [applyWrite, List.map_map]
      refine List.map_congr_left fun c _ => ?_
      by_cases h : c.card_code = code <;> simp [cardSkel, Function.comp, h]
  | insertInvite log => rfl

/-- A write never changes the code column of the card table. -/
lemma applyWrite_codes (db : DBState) (w : DBWrite) :
    ((applyWrite db w).cards.map fun c => c.card_code) =
      db.cards.map fun c => c.card_code := by
  have h := congrArg (List.map Prod.fst) (applyWrite_skeleton db w)
  simpa [List.map_map, Function.comp, cardSkel] using h

/-- Folding writes never changes the code column. -/
lemma foldl_applyWrite_codes (ws : List DBWrite) (db : DBState) :
    ((ws.foldl applyWrite db).cards.map fun c => c.card_code) =
      db.cards.map fun c => c.card_code := by
  induction ws generalizing db with
  | nil => rfl
  | cons w ws ih => rw [List.foldl_cons, ih, applyWrite_codes]

/-- Folding writes never changes the code/reusability skeleton. -/
lemma foldl_applyWrite_skeleton (ws : List DBWrite) (db : DBState) :
    ((ws.foldl applyWrite db).cards.map cardSkel) = db.cards.map cardSkel := by
  induction ws generalizing db with
  | nil => rfl
  | cons w ws ih => rw [List.foldl_cons, ih, applyWrite_skeleton]

/-- A stored card whose code a write does not target survives unchanged. -/
lemma applyWrite_mem_untouched {db : DBState} {c : GiftCardEntry}
    (hc : c ∈ db.cards) {w : DBWrite}
    (h : targetCode w ≠ some c.card_code) : c ∈ (applyWrite db w).cards := by
  cases w with
  | setLeft code v =>
      have hne : ¬ c.card_code = code := fun he => h (by simp [targetCode, he])
      have hmem := List.mem_map_of_mem
        (fun x => if x.card_code = code then { x with left := v } else x) hc
      simpa [applyWrite, hne] using hmem
  | assignOwner code u ts =>
      have hne : ¬ c.card_code = code := fun he => h (by simp [targetCode, he])
      have hmem := List.mem_map_of_mem
        (fun x => if x.card_code = code then
          { x with assigned_to_user_id := some u, assigned_timestamp := some ts }
          else x) hc
      simpa [applyWrite, hne] using hmem
  | insertInvite log => exact hc

/-- A stored card none of whose codes the writes target survives unchanged. -/
lemma foldl_applyWrite_mem {ws : List DBWrite} {db : DBState} {c : GiftCardEntry}
    (hc : c ∈ db.cards)
    (h : ∀ w ∈ ws, targetCode w ≠ some c.card_code) :
    c ∈ (ws.foldl applyWrite db).cards := by
  induction ws generalizing db with
  | nil => exact hc
  | cons w ws ih =>
      rw [List.foldl_cons]
      exact ih (applyWrite_mem_untouched hc (h w (by simp)))
        fun w' hw' => h w' (by simp [hw'])

/-- With unique codes, an already-owned card's code is never targeted by a
join event's writes: every consuming write targets a card that the
availability query saw as unassigned. -/
lemma joinPlan_target_ne {cfg : Config} {ev : JoinEvent} {db : DBState}
    {c : GiftCardEntry} {u : String}
    (hnd : codesNodup db) (hc : c ∈ db.cards)
    (hu : c.assigned_to_user_id = some u) :
    ∀ w ∈ (joinPlan cfg ev db).1, targetCode w ≠ some c.card_code := by
  intro w hw heq
  rcases joinPlan_writes hw with ⟨log, rfl⟩ | ⟨a, ha, r, rfl⟩
  · simp [targetCode] at heq
  · rw [consumeWrite_target] at heq
    have hcode : a.card_code = c.card_code := by simpa using heq
    obtain ⟨hamem, hanone⟩ := mem_availableCards ha
    have : a = c := List.inj_on_of_nodup_map hnd hamem hc hcode
    rw [this, hu] at hanone
    cases hanone

/-- Elements produced by `dedupKeepFirst` avoid the seen set. -/
lemma dedupKeepFirst_not_seen {l : List String} :
    ∀ {seen : List String}, ∀ x ∈ dedupKeepFirst seen l, x ∉ seen := by
  induction l with
  | nil => intro seen x hx; simp [dedupKeepFirst] at hx
  | cons c cs ih =>
      intro seen x hx
      by_cases h : seen.contains c
      · rw [dedupKeepFirst, if_pos h] at hx
        exact ih x hx
      · rw [dedupKeepFirst, if_neg h] at hx
        rcases List.mem_cons.1 hx with rfl | hx'
        · exact fun hmem => h (contains_eq_true_iff.2 hmem)
        · intro hmem
          exact ih x hx' (List.mem_cons_of_mem c hmem)

/-- `dedupKeepFirst` produces a duplicate-free list. -/
lemma dedupKeepFirst_nodup (l : List String) :
    ∀ seen : List String, (dedupKeepFirst seen l).Nodup := by
  induction l with
  | nil => intro seen; simp [dedupKeepFirst]
  | cons c cs ih =>
      intro seen
      by_cases h : seen.contains c
      · rw [dedupKeepFirst, if_pos h]; exact ih _
      · rw [dedupKeepFirst, if_neg h]
        refine List.nodup_cons.2 ⟨?_, ih _⟩
        intro hmem
        exact dedupKeepFirst_not_seen c hmem (List.mem_cons_self c seen)

/-- The codes of the rows built by the `.add` upsert are the upserted codes. -/
lemma map_code_mkSingle (adminId : String) (now : Nat) (base : Nat)
    (codes : List String) :
    ((codes.enum.map fun p => mkSingleCard adminId now (base + p.1) p.2).map
      fun c => c.card_code) = codes := by
  rw [List.map_map]
  have h : ((fun c => c.card_code) ∘
      fun p : Nat × String => mkSingleCard adminId now (base + p.1) p.2) =
      Prod.snd := by
    funext p; rfl
  rw [h, List.enum_map_snd]

/-- The codes of the rows built by the `.addre` upsert are the upserted codes. -/
lemma map_code_mkMulti (adminId : String) (now : Nat) (freq : Int) (base : Nat)
    (codes : List String) :
    ((codes.enum.map fun p => mkMultiCard adminId now freq (base + p.1) p.2).map
      fun c => c.card_code) = codes := by
  rw [List.map_map]
  have h : ((fun c => c.card_code) ∘
      fun p : Nat × String => mkMultiCard adminId now freq (base + p.1) p.2) =
      Prod.snd := by
    funext p; rfl
  rw [h, List.enum_map_snd]

/-- An upserted code was not yet stored. -/
lemma codesToUpsert_fresh {db : DBState} {input : List String} {x : String}
    (hx : x ∈ codesToUpsert db input) (hin : x ∈ input) :
    ∀ y ∈ db.cards, y.card_code ≠ x := by
  intro y hy hyx
  have h' := List.mem_filter.1 hx
  have hyfilter : y ∈ db.cards.filter fun c => input.contains c.card_code :=
    List.mem_filter.2 ⟨hy, by rw [hyx]; exact contains_eq_true_iff.2 hin⟩
  have : x ∈ existingCodesOf db input := by
    unfold existingCodesOf
    rw [← hyx]
    exact List.mem_map_of_mem _ hyfilter
  rw [contains_eq_true_iff.2 this] at h'
  simp at h'

/-- The upserted codes are duplicate-free. -/
lemma codesToUpsert_nodup (db : DBState) (codes : List String) :
    (codesToUpsert db (dedupKeepFirst [] codes)).Nodup :=
  (dedupKeepFirst_nodup codes []).filter _

/-- `.add` keeps the code column duplicate-free. -/
lemma addCards_nodup {adminId : String} {now : Nat} {codes : List String}
    {db : DBState} (hnd : codesNodup db) :
    codesNodup (addCards adminId now codes db).1 := by
  unfold codesNodup addCards at *
  simp only [List.map_append]
  rw [map_code_mkSingle]
  refine List.Nodup.append hnd (codesToUpsert_nodup db codes) ?_
  intro x hxold hxnew
  obtain ⟨y, hy, hyx⟩ := List.mem_map.1 hxold
  exact codesToUpsert_fresh hxnew
    (List.mem_of_mem_filter hxnew) y hy hyx

/-- `.addre` keeps the code column duplicate-free. -/
lemma addReCards_nodup {adminId : String} {now : Nat} {codes : List String}
    {freq : Int} {db : DBState} (hnd : codesNodup db) :
    codesNodup (addReCards adminId now codes freq db).1 := by
  unfold codesNodup addReCards at *
  simp only [List.map_append]
  rw [map_code_mkMulti]
  refine List.Nodup.append hnd (codesToUpsert_nodup db codes) ?_
  intro x hxold hxnew
  obtain ⟨y, hy, hyx⟩ := List.mem_map.1 hxold
  exact codesToUpsert_fresh hxnew
    (List.mem_of_mem_filter hxnew) y hy hyx

/-- Every operation keeps the code column duplicate-free. -/
lemma applyOp_nodup {cfg : Config} {db : DBState} (op : Op)
    (hnd : codesNodup db) : codesNodup (applyOp cfg db op) := by
  cases op with
  | join ev =>
      show codesNodup (processJoin cfg ev db).1
      unfold codesNodup processJoin
      rw [foldl_applyWrite_codes]
      exact hnd
  | addSingle a n codes => exact addCards_nodup hnd
  | addMulti a n codes f => exact addReCards_nodup hnd

/-- An already-owned card survives any single operation unchanged. -/
lemma applyOp_owner_preserved {cfg : Config} {db : DBState} (op : Op)
    {c : GiftCardEntry} {u : String}
    (hnd : codesNodup db) (hc : c ∈ db.cards)
    (hu : c.assigned_to_user_id = some u) :
    c ∈ (applyOp cfg db op).cards := by
  cases op with
  | join ev =>
      show c ∈ (processJoin cfg ev db).1.cards
      unfold processJoin
      exact foldl_applyWrite_mem hc (joinPlan_target_ne hnd hc hu)
  | addSingle a n codes =>
      show c ∈ (addCards a n codes db).1.cards
      unfold addCards
      exact List.mem_append_left _ hc
  | addMulti a n codes f =>
      show c ∈ (addReCards a n codes f db).1.cards
      unfold addReCards
      exact List.mem_append_left _ hc

/-- `runOps` unfolding step. -/
lemma runOps_cons (cfg : Config) (db : DBState) (op : Op) (ops : List Op) :
    runOps cfg db (op :: ops) = runOps cfg (applyOp cfg db op) ops := rfl

/-- An already-owned card survives any operation sequence, and codes stay
duplicate-free. -/
lemma runOps_nodup_owner (cfg : Config) (ops : List Op) :
    ∀ db : DBState, ∀ c : GiftCardEntry, ∀ u : String, codesNodup db →
      c ∈ db.cards → c.assigned_to_user_id = some u →
      codesNodup (runOps cfg db ops) ∧ c ∈ (runOps cfg db ops).cards := by
  induction ops with
  | nil => exact fun db c u h1 h2 _ => ⟨h1, h2⟩
  | cons op ops ih =>
      intro db c u h1 h2 h3
      rw [runOps_cons]
      exact ih _ c u (applyOp_nodup op h1) (applyOp_owner_preserved op h1 h2 h3) h3

/-- Claim C6: a single-use voucher, once assigned, keeps its owner through
every sequence of join events and administrative adds: the reward path only
ever targets cards whose owner column was null, the add commands only insert
codes that are not yet stored, and the `card_code` column is unique, so the
assigned record itself persists unchanged and remains the only record with
its code. -/
theorem singleUseOwner_immutable (cfg : Config) (db : DBState) (ops : List Op)
    (c : GiftCardEntry) (u : String)
    (hnd : codesNodup db) (hc : c ∈ db.cards)
    (_hre : c.isreusable = false)
    (hu : c.assigned_to_user_id = some u) :
    c ∈ (runOps cfg db ops).cards ∧
    ∀ c' ∈ (runOps cfg db ops).cards, c'.card_code = c.card_code →
      c'.assigned_to_user_id = some u := by
  obtain ⟨hnd', hc'⟩ := runOps_nodup_owner cfg ops db c u hnd hc hu
  refine ⟨hc', fun c' hc'' hcode => ?_⟩
  have : c' = c := List.inj_on_of_nodup_map hnd' hc'' hc' hcode
  rw [this, hu]

/-- Writes of a join event assign an owner only for a card stored as
non-reusable. -/
lemma joinPlan_assign_nonreusable {cfg : Config} {ev : JoinEvent}
    {db : DBState} {w : DBWrite} (hw : w ∈ (joinPlan cfg ev db).1) :
    ∀ code user ts, w = DBWrite.assignOwner code user ts →
      ∃ a ∈ db.cards, a.card_code = code ∧ a.isreusable = false := by
  intro code user ts heq
  rcases joinPlan_writes hw with ⟨log, rfl⟩ | ⟨a, ha, r, rfl⟩
  · cases heq
  · unfold consumeWrite at heq
    cases hre : a.isreusable with
    | true => rw [if_pos hre] at heq; cases heq
    | false =>
        rw [if_neg (by simp [hre])] at heq
        injection heq with h1 _ _
        exact ⟨a, (mem_availableCards ha).1, h1, hre⟩

/-- One write preserves the reusable-cards-unowned invariant, provided any
owner-assigning write targets the code of a stored non-reusable card. -/
lemma applyWrite_reusableUnowned {db : DBState} {w : DBWrite}
    (hnd : codesNodup db) (hinv : ReusableUnowned db)
    (hw : ∀ code user ts, w = DBWrite.assignOwner code user ts →
      ∃ a ∈ db.cards, a.card_code = code ∧ a.isreusable = false) :
    ReusableUnowned (applyWrite db w) := by
  cases w with
  | setLeft code v =>
      intro x hx hre
      simp only [applyWrite, List.mem_map] at hx
      obtain ⟨y, hy, hxy⟩ := hx
      by_cases h : y.card_code = code
      · rw [if_pos h] at hxy; subst hxy; exact hinv y hy hre
      · rw [if_neg h] at hxy; subst hxy; exact hinv y hy hre
  | assignOwner code u ts =>
      intro x hx hre
      simp only [applyWrite, List.mem_map] at hx
      obtain ⟨y, hy, hxy⟩ := hx
      by_cases h : y.card_code = code
      · rw [if_pos h] at hxy
        subst hxy
        obtain ⟨a, ha, hacode, hare⟩ := hw code u ts rfl
        have hya : y = a :=
          List.inj_on_of_nodup_map hnd hy ha (by rw [h, hacode])
        have hre' : y.isreusable = true := hre
        rw [hya, hare] at hre'
        cases hre'
      · rw [if_neg h] at hxy; subst hxy; exact hinv y hy hre
  | insertInvite log => exact fun x hx hre => hinv x hx hre

/-- Folding a join event's writes preserves the reusable-cards-unowned
invariant: the skeleton equality transports the per-write side condition,
which is stated against the pre-state, to each intermediate state. -/
lemma foldl_applyWrite_reusableUnowned {ws : List DBWrite} {db0 : DBState} :
    ∀ {db : DBState}, db.cards.map cardSkel = db0.cards.map cardSkel →
    codesNodup db → ReusableUnowned db →
    (∀ w ∈ ws, ∀ code user ts, w = DBWrite.assignOwner code user ts →
      ∃ a ∈ db0.cards, a.card_code = code ∧ a.isreusable = false) →
    ReusableUnowned (ws.foldl applyWrite db) := by
  induction ws with
  | nil => exact fun _ _ hinv _ => hinv
  | cons w ws ih =>
      intro db hskel hnd hinv hws
      rw [List.foldl_cons]
      have hw0 : ∀ code user ts, w = DBWrite.assignOwner code user ts →
          ∃ a ∈ db.cards, a.card_code = code ∧ a.isreusable = false := by
        intro code user ts hweq
        obtain ⟨a, ha, h1, h2⟩ := hws w (by simp) code user ts hweq
        have hmem : cardSkel a ∈ db.cards.map cardSkel := by
          rw [hskel]; exact List.mem_map_of_mem _ ha
        obtain ⟨b, hb, hba⟩ := List.mem_map.1 hmem
        have hbc : b.card_code = a.card_code ∧ b.isreusable = a.isreusable := by
          have := congrArg Prod.fst hba
          have h2' := congrArg Prod.snd hba
          exact ⟨this, h2'⟩
        exact ⟨b, hb, by rw [hbc.1, h1], by rw [hbc.2, h2]⟩
      refine ih ?_ ?_ (applyWrite_reusableUnowned hnd hinv hw0) ?_
      · rw [applyWrite_skeleton, hskel]
      · unfold codesNodup
        rw [applyWrite_codes]
        exact hnd
      · exact fun w' hw' => hws w' (by simp [hw'])

/-- Every operation preserves the reusable-cards-unowned invariant. -/
lemma applyOp_reusableUnowned {cfg : Config} {db : DBState} (op : Op)
    (hnd : codesNodup db) (hinv : ReusableUnowned db) :
    ReusableUnowned (applyOp cfg db op) := by
  cases op with
  | join ev =>
      show ReusableUnowned (processJoin cfg ev db).1
      unfold processJoin
      exact foldl_applyWrite_reusableUnowned rfl hnd hinv
        fun w hw => joinPlan_assign_nonreusable hw
  | addSingle a n codes =>
      intro x hx hre
      rcases List.mem_append.1 hx with h | h
      · exact hinv x h hre
      · obtain ⟨p, _, hpx⟩ := List.mem_map.1 h
        rw [← hpx]
        rfl
  | addMulti a n codes f =>
      intro x hx hre
      rcases List.mem_append.1 hx with h | h
      · exact hinv x h hre
      · obtain ⟨p, _, hpx⟩ := List.mem_map.1 h
        rw [← hpx]
        rfl

/-- The invariant and code uniqueness persist along operation sequences. -/
lemma runOps_nodup_reusableUnowned (cfg : Config) (ops : List Op) :
    ∀ db : DBState, codesNodup db → ReusableUnowned db →
      codesNodup (runOps cfg db ops) ∧ ReusableUnowned (runOps cfg db ops) := by
  induction ops with
  | nil => exact fun db h1 h2 => ⟨h1, h2⟩
  | cons op ops ih =>
      intro db h1 h2
      rw [runOps_cons]
      exact ih _ (applyOp_nodup op h1) (applyOp_reusableUnowned op h1 h2)

/-- Claim C9: multi-use vouchers never acquire an owner: they are created
with a null owner, the reward path's reusable branch only decrements their
counter, and an owner write is only ever issued for a non-reusable card.
Consequently the `.me` per-user query, which filters on the owner column,
returns only single-use vouchers. -/
theorem reusable_never_owned (cfg : Config) (db : DBState) (ops : List Op)
    (hnd : codesNodup db) (hinv : ReusableUnowned db) :
    ReusableUnowned (runOps cfg db ops) ∧
    ∀ u : String, ∀ c ∈ getMyCards u (runOps cfg db ops),
      c.isreusable = false := by
  obtain ⟨_, hinv'⟩ := runOps_nodup_reusableUnowned cfg ops db hnd hinv
  refine ⟨hinv', fun u c hc => ?_⟩
  have h' := List.mem_filter.1 hc
  cases hre : c.isreusable with
  | false => rfl
  | true =>
      have hnone := hinv' c h'.1 hre
      rw [show (c.assigned_to_user_id == some u) =
          (Option.none == some u) from by rw [hnone]] at h'
      cases h'.2

/-- Claim C5: when the handler reaches the capacity check of an eligible
join and the available capacity (sum of `left` over unassigned reusable
cards plus the count of unassigned single-use cards) is below the total
requirement, it issues no write at all — the card table and the ledger are
untouched — and the configured administrators are messaged about the
shortage. -/
theorem insufficientInventory_no_mutation (cfg : Config) (ev : JoinEvent)
    (db : DBState) (gid inviter : String)
    (hg : ev.guildId = some gid)
    (htgt : cfg.targetGroups.contains gid = true)
    (hop : ev.operatorId = some inviter)
    (hne : inviter ≠ ev.userId)
    (hprev : (db.invites.filter fun l =>
      l.invited_id == ev.userId && l.group_id == gid) = [])
    (hneed : totalCardsNeeded cfg ≠ 0)
    (hcap : totalAvailableCards db < (totalCardsNeeded cfg : Int)) :
    processJoin cfg ev db = (db, JoinOutcome.insufficientInventory cfg.adminIds) := by
  have htgt' : gid ∈ cfg.targetGroups := contains_eq_true_iff.1 htgt
  unfold processJoin joinPlan
  rw [hg, hop]
  simp [htgt', hne, hprev, hneed, hcap]

/-- Claim C5 witness: the spec scenario — zero available vouchers and a
requirement of one for the referrer — yields the shortage outcome with no
mutation and no ledger entry. -/
theorem insufficientInventory_no_mutation_witness :
    evJoin.guildId = some "g" ∧ cfg1.targetGroups.contains "g" = true ∧
    evJoin.operatorId = some "v" ∧ "v" ≠ evJoin.userId ∧
    (dbEmpty.invites.filter fun l =>
      l.invited_id == evJoin.userId && l.group_id == "g") = [] ∧
    totalCardsNeeded cfg1 ≠ 0 ∧
    totalAvailableCards dbEmpty < (totalCardsNeeded cfg1 : Int) ∧
    processJoin cfg1 evJoin dbEmpty =
      (dbEmpty, JoinOutcome.insufficientInventory ["adm"]) :=
  ⟨rfl, by decide, rfl, by decide, rfl, by decide, by decide,
   insufficientInventory_no_mutation cfg1 evJoin dbEmpty "g" "v" rfl (by decide)
     rfl (by decide) rfl (by decide) (by decide)⟩

/-- Claim C7: the eligibility gates run in the source order and every
ineligible event leaves the state untouched: a missing or non-enrolled
group is ignored; for an enrolled group a missing referrer or a
self-referral skips the reward logic; and with a valid referrer an existing
ledger row for the `(invited, group)` pair ends processing with no reward. -/
theorem eligibility_checks_ordered (cfg : Config) (ev : JoinEvent) (db : DBState) :
    (ev.guildId = none → processJoin cfg ev db = (db, JoinOutcome.notTargetGroup)) ∧
    (∀ gid, ev.guildId = some gid → cfg.targetGroups.contains gid = false →
      processJoin cfg ev db = (db, JoinOutcome.notTargetGroup)) ∧
    (∀ gid, ev.guildId = some gid → cfg.targetGroups.contains gid = true →
      (ev.operatorId = none ∨ ev.operatorId = some ev.userId) →
      processJoin cfg ev db = (db, JoinOutcome.directJoin)) ∧
    (∀ gid inviter, ev.guildId = some gid → cfg.targetGroups.contains gid = true →
      ev.operatorId = some inviter → inviter ≠ ev.userId →
      0 < (db.invites.filter fun l =>
        l.invited_id == ev.userId && l.group_id == gid).length →
      processJoin cfg ev db = (db, JoinOutcome.alreadyJoined)) := by
  refine ⟨fun hg => ?_, fun gid hg htgt => ?_, fun gid hg htgt hop => ?_,
    fun gid inviter hg htgt hop hne hprev => ?_⟩
  · unfold processJoin joinPlan
    rw [hg]
    simp
  · have htgt' : gid ∉ cfg.targetGroups :=
      fun hmem => by rw [contains_eq_true_iff.2 hmem] at htgt; cases htgt
    unfold processJoin joinPlan
    rw [hg]
    simp [htgt']
  · have htgt' : gid ∈ cfg.targetGroups := contains_eq_true_iff.1 htgt
    unfold processJoin joinPlan
    rw [hg]
    rcases hop with hop | hop <;> rw [hop] <;> simp [htgt']
  · have htgt' : gid ∈ cfg.targetGroups := contains_eq_true_iff.1 htgt
    unfold processJoin joinPlan
    rw [hg, hop]
    simp [htgt', hne, hprev]

/-- Join event with no guild id. -/
def evNoGuild : JoinEvent :=
  { guildId := none, userId := "u", operatorId := some "v", now := 0 }

/-- Join event in a group that is not enrolled. -/
def evWrongGroup : JoinEvent :=
  { guildId := some "h", userId := "u", operatorId := some "v", now := 0 }

/-- Join event whose operator equals the joining user. -/
def evSelf : JoinEvent :=
  { guildId := some "g", userId := "u", operatorId := some "u", now := 0 }

/-- Ledger row recording that `u` already joined group `g`. -/
def logU : GiftCardInviteLog :=
  { id := 1, inviter_id := some "x", invited_id := "u", group_id := "g",
    timestamp := 0, inviter_card_id := none, invited_card_id := none }

/-- Store with one card and a ledger row for `(u, g)`. -/
def dbPrev : DBState := { cards := [cardS1], invites := [logU] }

/-- Claim C7 witness: each gate observed on a concrete input. -/
theorem eligibility_checks_ordered_witness :
    processJoin cfg1 evNoGuild dbEmpty = (dbEmpty, JoinOutcome.notTargetGroup) ∧
    processJoin cfg1 evWrongGroup dbEmpty =
      (dbEmpty, JoinOutcome.notTargetGroup) ∧
    processJoin cfg1 evSelf dbEmpty = (dbEmpty, JoinOutcome.directJoin) ∧
    processJoin cfg1 evJoin dbPrev = (dbPrev, JoinOutcome.alreadyJoined) :=
  ⟨(eligibility_checks_ordered cfg1 evNoGuild dbEmpty).1 rfl,
   (eligibility_checks_ordered cfg1 evWrongGroup dbEmpty).2.1 "h" rfl (by decide),
   (eligibility_checks_ordered cfg1 evSelf dbEmpty).2.2.1 "g" rfl (by decide)
     (Or.inr rfl),
   (eligibility_checks_ordered cfg1 evJoin dbPrev).2.2.2 "g" "v" rfl (by decide)
     rfl (by decide) (by decide)⟩

/-- Claim C10: the local `cardForInvited` is null and never reassigned on
the live reward path, so the rewarded outcome never carries the
invited-member notification: no private message is ever sent to the
invited member, even when `rewardInvitedUser` is on and a card was
consumed on the invited member's behalf. -/
theorem invited_notification_unreachable (cfg : Config) (ev : JoinEvent)
    (db : DBState) (cards : List GiftCardEntry) (b : Bool)
    (h : (processJoin cfg ev db).2 = JoinOutcome.rewarded cards b) :
    b = false := by
  unfold processJoin joinPlan at h
  split at h
  · simp at h
  · split at h
    · split at h
      · simp at h
      · split at h
        · simp at h
        · split at h
          · simp at h
          · split at h
            · simp at h
            · split at h
              · simp at h
              · split at h
                · simp at h
                · simp only [cardForInvited, Option.isSome_none,
                    JoinOutcome.rewarded.injEq] at h
                  exact h.2.symm
    · simp at h

/-- Claim C10 witness: a rewarded outcome observed concretely carries a
false notification flag. -/
theorem invited_notification_unreachable_witness :
    (processJoin cfg1 evJoin dbC1).2 = JoinOutcome.rewarded [cardS1] false ∧
    false = false :=
  ⟨by decide, invited_notification_unreachable cfg1 evJoin dbC1 [cardS1] false
    (by decide)⟩

/-- Single-use card `W1` already owned by user `w`. -/
def cardOwned : GiftCardEntry :=
  { id := 1, card_code := "W1", assigned_to_user_id := some "w",
    assigned_timestamp := some 1, added_by_admin_id := "adm",
    add_timestamp := 0, left := 0, isreusable := false }

/-- Unassigned single-use card `W2`. -/
def cardFree : GiftCardEntry := mkSingleCard "adm" 0 2 "W2"

/-- Store holding an owned and an unassigned card. -/
def dbW : DBState := { cards := [cardOwned, cardFree], invites := [] }

/-- A rewarded join followed by an `.add` batch that includes the owned
card's code. -/
def opsW : List Op := [Op.join evJ1, Op.addSingle "adm" 5 ["W1", "W3"]]

/-- Claim C6 witness: `W1` keeps owner `w` through a rewarded join and an
add batch re-submitting its code. -/
theorem singleUseOwner_immutable_witness :
    codesNodup dbW ∧ cardOwned ∈ dbW.cards ∧ cardOwned.isreusable = false ∧
    cardOwned.assigned_to_user_id = some "w" ∧
    (cardOwned ∈ (runOps cfg1 dbW opsW).cards ∧
     ∀ c' ∈ (runOps cfg1 dbW opsW).cards, c'.card_code = cardOwned.card_code →
       c'.assigned_to_user_id = some "w") :=
  ⟨by decide, by decide, rfl, rfl,
   singleUseOwner_immutable cfg1 dbW opsW cardOwned "w" (by decide) (by decide)
     rfl rfl⟩

/-- Multi-use card `R1` with three uses. -/
def cardMW : GiftCardEntry := mkMultiCard "adm" 0 3 1 "R1"

/-- Store holding a multi-use and a single-use card. -/
def dbR : DBState :=
  { cards := [cardMW, mkSingleCard "adm" 0 2 "R2"], invites := [] }

/-- A rewarded join (consuming one use of `R1`) followed by an `.addre`. -/
def opsR : List Op := [Op.join evJ1, Op.addMulti "adm" 4 ["R3"] 2]

/-- Claim C9 witness: multi-use cards stay unowned through a join that
consumes a use and a later `.addre`, and the per-user query returns only
single-use cards. -/
theorem reusable_never_owned_witness :
    codesNodup dbR ∧ ReusableUnowned dbR ∧
    (ReusableUnowned (runOps cfg1 dbR opsR) ∧
     ∀ u : String, ∀ c ∈ getMyCards u (runOps cfg1 dbR opsR),
       c.isreusable = false) :=
  ⟨by decide, by decide, reusable_never_owned cfg1 dbR opsR (by decide) (by decide)⟩
